import Mathlib

/-!
Verification of the `video_processor` app of the getoutvideo_django
repository.

The app exposes one HTTP endpoint that validates a YouTube URL and a list
of requested processing styles, delegates content generation to the
external GetOutVideo API, normalizes the returned output files into a
results mapping, and translates failures into categorized errors with
HTTP status codes.

This file shallowly embeds the relevant Python code:
  * `serializers.py` — URL and static style validation,
    `VideoResultsSerializer` re-validation of the results mapping;
  * `services.py` — `VideoProcessingService` (style resolution and dynamic
    validation, output-file parsing, error classification, orchestration);
  * `exceptions.py` — the four categorized error classes and their codes.

Python strings are embedded as `String` (operating on `.data : List Char`);
the filesystem visible to the service is a partial map from path strings to
file contents; the external API is a record of pure functions whose calls
may return errors (embedding raised exceptions).
-/

namespace VideoProc

/-! ## String primitives (Python `str` operations, ASCII) -/

/-- Python `str.lower()` (ASCII range, which is all the code relies on). -/
def pyLower (s : String) : String := String.mk (s.data.map Char.toLower)

/-- Python whitespace (ASCII range), as stripped by `str.strip()`. -/
def isPySpace (c : Char) : Bool :=
  c = ' ' || c = '\t' || c = '\n' || c = '\r' || c = '\x0b' || c = '\x0c'
    || c = '\x1c' || c = '\x1d' || c = '\x1e' || c = '\x1f'

/-- Python `str.strip()` with no argument: remove leading and trailing
whitespace (ASCII range). -/
def pyStrip (s : String) : String :=
  String.mk (((s.data.dropWhile isPySpace).reverse.dropWhile isPySpace).reverse)

/-- One pass of Python `str.replace(old, new)` over a char list, with fuel
bounded by the list length (each step consumes at least one character). -/
def replaceFuel (needle repl : List Char) : Nat → List Char → List Char
  | _, [] => []
  | 0, cs => cs
  | fuel + 1, c :: cs =>
    if !needle.isEmpty && needle.isPrefixOf (c :: cs) then
      repl ++ replaceFuel needle repl fuel (List.drop needle.length (c :: cs))
    else
      c :: replaceFuel needle repl fuel cs

/-- Python `s.replace(old, new)` (left-to-right, non-overlapping). -/
def pyReplace (s old new : String) : String :=
  String.mk (replaceFuel old.data new.data s.data.length s.data)

/-- Python `needle in haystack` substring test. -/
def containsSub (needle : List Char) : List Char → Bool
  | [] => needle.isEmpty
  | c :: cs => needle.isPrefixOf (c :: cs) || containsSub needle cs

/-- Python `needle in haystack` on strings. -/
def strContains (needle haystack : String) : Bool :=
  containsSub needle.data haystack.data

/-- Python `s.split(sep)` for a one-character separator: splits at every
occurrence, never collapses, never returns an empty list. -/
def pySplitChar (sep : Char) : List Char → List (List Char)
  | [] => [[]]
  | c :: cs =>
    if c = sep then [] :: pySplitChar sep cs
    else
      match pySplitChar sep cs with
      | [] => [[c]]
      | t :: ts => (c :: t) :: ts

/-- Python `sep.join(parts)` for a one-character separator. -/
def joinSep (sep : Char) : List (List Char) → List Char
  | [] => []
  | [x] => x
  | x :: y :: ys => x ++ sep :: joinSep sep (y :: ys)

/-- Final path component (`pathlib`: the name after the last `/`). -/
def lastComponent (cs : List Char) : List Char :=
  (pySplitChar '/' cs).getLastD []

/-- The `pathlib` stem of a file name: drop the suffix `name[i:]` when
`i = name.rfind('.')` satisfies `0 < i < len(name) - 1`. -/
def stemOfName (name : List Char) : List Char :=
  match name.reverse.findIdx? (fun c => c = '.') with
  | none => name
  | some j =>
    let i := name.length - 1 - j
    if 0 < i ∧ i < name.length - 1 then name.take i else name

/-- Python `Path(p).stem`. -/
def pathStem (p : String) : String :=
  String.mk (stemOfName (lastComponent p.data))

/-! ## Categorized errors (`exceptions.py`) -/

/-- The four categorized error kinds of `exceptions.py`. -/
inductive ErrorKind where
  | validation
  | externalService
  | timeout
  | configuration
  deriving DecidableEq

/-- HTTP status code attached by each exception class constructor. -/
def statusOf : ErrorKind → Nat
  | .validation => 400
  | .externalService => 502
  | .timeout => 422
  | .configuration => 500

/-- A raised `VideoProcessorError`: its subclass (kind) and message. -/
structure CategorizedError where
  kind : ErrorKind
  message : String
  deriving DecidableEq

/-- The `status_code` carried by a raised `VideoProcessorError`. -/
def CategorizedError.status_code (e : CategorizedError) : Nat :=
  statusOf e.kind

/-- Embeds `raise VideoValidationError(msg)`. -/
def videoValidationError (message : String) : CategorizedError :=
  ⟨.validation, message⟩

/-- Embeds `raise ExternalServiceError(msg)`. -/
def externalServiceError (message : String) : CategorizedError :=
  ⟨.externalService, message⟩

/-- Embeds `raise ProcessingTimeoutError(msg)`. -/
def processingTimeoutError (message : String) : CategorizedError :=
  ⟨.timeout, message⟩

/-- Embeds `raise ConfigurationError(msg)`. -/
def configurationError (message : String) : CategorizedError :=
  ⟨.configuration, message⟩

/-! ## Error classifier (`VideoProcessingService._handle_processing_error`) -/

/-- Embeds `_handle_processing_error(e, video_url)`: classify an exception message
by case-insensitive substring search, first match winning. -/
def handle_processing_error (e : String) (video_url : String) : CategorizedError :=
  let error_msg := pyLower e
  if strContains "invalid url" error_msg
      || strContains "not found" error_msg
      || strContains "unavailable" error_msg then
    videoValidationError ("Invalid or inaccessible video URL: " ++ video_url)
  else if strContains "timeout" error_msg then
    processingTimeoutError "Video processing timed out"
  else if strContains "api key" error_msg
      || strContains "authentication" error_msg then
    configurationError "API authentication failed"
  else
    externalServiceError ("External service error: " ++ e)

/-! ## Output normalizer (`VideoProcessingService._parse_output_files`) -/

/-- The `style_mapping` dict of `_parse_output_files`, in insertion order. -/
def style_mapping : List (String × String) :=
  [("Balanced and Detailed", "balanced"),
   ("Summary", "summary"),
   ("Educational", "educational"),
   ("Narrative Rewriting", "narrative"),
   ("Q&A Generation", "qa_generation")]

/-- Normalized form used by the matcher: lowercased, spaces to underscores. -/
def normLabel (s : String) : String := pyReplace (pyLower s) " " "_"

/-- Embeds `api_style.lower().replace(" ", "_") in style.lower().replace(" ", "_")`:
does the table entry occur as a substring of the raw style label? -/
def styleMatches (style : String) (entry : String × String) : Bool :=
  strContains (normLabel entry.1) (normLabel style)

/-- Fallback key: `style.lower().replace(" ", "_").replace("&", "and")`. -/
def fallbackKey (style : String) : String :=
  pyReplace (pyReplace (pyLower style) " " "_") "&" "and"

/-- Resolve a raw style label to a result key: first matching table entry
in insertion order, else the fallback key. -/
def resolveStyleKey (style : String) : String :=
  match style_mapping.find? (styleMatches style) with
  | some entry => entry.2
  | none => fallbackKey style

/-- Python dict assignment `d[k] = v`: overwrite in place if the key is
present, else append. -/
def dictInsert (d : List (String × String)) (k v : String) : List (String × String) :=
  if d.any (fun p => p.1 == k) then
    d.map (fun p => if p.1 == k then (k, v) else p)
  else
    d ++ [(k, v)]

/-- The filesystem visible to the service: path string to file content. -/
def Disk : Type := String → Option String

/-- One iteration of the `for file_path_str in output_files` loop: the
accumulator is the `(results, video_title)` pair. -/
def parseStep (disk : Disk) (acc : List (String × String) × String)
    (file_path_str : String) : List (String × String) × String :=
  match disk file_path_str with
  | none => acc
  | some content =>
    let filename := pathStem file_path_str
    if filename.data.contains '_' then
      let parts := pySplitChar '_' filename.data
      if parts.length ≥ 2 then
        match parts with
        | [] => acc
        | p0 :: rest =>
          let video_title := String.mk p0
          let style := String.mk (joinSep '_' rest)
          (dictInsert acc.1 (resolveStyleKey style) content, video_title)
      else acc
    else acc

/-- Embeds `_parse_output_files(output_files)`: fold the loop over the file list,
starting from an empty results dict and the sentinel title. -/
def parse_output_files (disk : Disk) (output_files : List String) :
    List (String × String) × String :=
  output_files.foldl (parseStep disk) ([], "Unknown Title")

/-! ## Request validators (`serializers.py`) -/

/-- The static allow-list of `validate_styles`. -/
def valid_styles : List String :=
  ["Summary", "Educational", "Balanced", "QA Generation", "Narrative"]

/-- Python `", ".join(valid_styles)` rendering used in the error message. -/
def joinCommaSpace : List String → String
  | [] => ""
  | [x] => x
  | x :: y :: ys => x ++ ", " ++ joinCommaSpace (y :: ys)

/-- The error message raised for an invalid style `s`. -/
def invalidStyleMsg (s : String) : String :=
  "Invalid style \x27" ++ s ++ "\x27. Valid styles are: " ++ joinCommaSpace valid_styles

/-- Embeds `VideoProcessRequestSerializer.validate_styles`: loop over the list and
raise on the first style outside the allow-list. -/
def validate_styles (value : List String) : Except String (List String) :=
  match value.find? (fun s => !(valid_styles.contains s)) with
  | some s => .error (invalidStyleMsg s)
  | none => .ok value

/-- Literal-prefix matcher: consume `lit` from the front of `cs`. -/
def dropLit : List Char → List Char → Option (List Char)
  | [], cs => some cs
  | _ :: _, [] => none
  | l :: ls, c :: cs => if c = l then dropLit ls cs else none

/-- Pattern `https?://`: the scheme part shared by all five patterns. -/
def dropScheme (cs : List Char) : Option (List Char) :=
  match dropLit "https://".data cs with
  | some r => some r
  | none => dropLit "http://".data cs

/-- Pattern `(www\.)?`: optionally consume a leading `www.`. -/
def dropWWW (cs : List Char) : List Char :=
  if "www.".data.isPrefixOf cs then cs.drop 4 else cs

/-- A character of the class `[\w-]` (ASCII word characters, as used by the
URL patterns). -/
def isWordDash (c : Char) : Bool := c.isAlphanum || c = '_' || c = '-'

/-- Pattern `[\w-]+` anchored here with arbitrary trailing input: at least one
word/dash character next. -/
def hasWordDashHead : List Char → Bool
  | [] => false
  | c :: _ => isWordDash c

/-- Literal followed by `[\w-]+` (then anything). -/
def litThenId (lit : String) (cs : List Char) : Bool :=
  match dropLit lit.data cs with
  | some r => hasWordDashHead r
  | none => false

/-- Pattern `v=[\w-]+` anchored here (then anything). -/
def vEqHead : List Char → Bool
  | c1 :: c2 :: d :: _ => c1 = 'v' && c2 = '=' && isWordDash d
  | _ => false

/-- Pattern `.*v=[\w-]+`: scan for `v=` followed by a word/dash character, the
skipped prefix containing no newline (regex `.` excludes newline). -/
def dotStarVEq : List Char → Bool
  | [] => false
  | c :: cs => vEqHead (c :: cs) || (if c = '\n' then false else dotStarVEq cs)

/-- Embeds `re.match` over the five YouTube patterns of `validate_video_url`
(anchored at the start of the string only). -/
def matchYoutube (s : String) : Bool :=
  match dropScheme s.data with
  | none => false
  | some rest =>
    litThenId "youtube.com/watch?v=" (dropWWW rest)
    || (match dropLit "youtube.com/watch?".data (dropWWW rest) with
        | some r => dotStarVEq r
        | none => false)
    || litThenId "youtu.be/" rest
    || litThenId "youtube.com/embed/" (dropWWW rest)
    || litThenId "youtube.com/v/" (dropWWW rest)

/-- The `validate_video_url` error message. -/
def invalidUrlMsg : String :=
  "Invalid YouTube URL. Please provide a valid YouTube video URL."

/-- Embeds `VideoProcessRequestSerializer.validate_video_url`. -/
def validate_video_url (value : String) : Except String String :=
  if matchYoutube value then .ok value else .error invalidUrlMsg

/-! ## Orchestrator (`VideoProcessingService.process_video`) -/

/-- An exception escaping the external API call: either an already-typed
`VideoProcessorError` or a generic exception carrying its message. -/
inductive PyError where
  | categorized (e : CategorizedError)
  | generic (msg : String)
  deriving DecidableEq

/-- The external GetOutVideo API as seen by the service: the supported-style
query, the processing call (url, output_dir, styles, output_language), and
the filesystem holding the files the processing call wrote. Either call may
fail; the processing call may raise an arbitrary exception. -/
structure ExtApi where
  available_styles : Except String (List String)
  process_youtube_url : String → String → List String → String → Except PyError (List String)
  disk : Disk

/-- Embeds `VideoProcessingService.get_available_styles`: wrap any failure of the
API query into an `ExternalServiceError`. -/
def get_available_styles (api : ExtApi) : Except CategorizedError (List String) :=
  match api.available_styles with
  | .ok styles => .ok styles
  | .error e =>
    .error (externalServiceError ("Failed to get available styles: " ++ e))

/-- Python `repr` of a list of strings, as interpolated into f-strings. -/
def pyReprStrList (l : List String) : String :=
  "[" ++ joinCommaSpace (l.map (fun s => "\x27" ++ s ++ "\x27")) ++ "]"

/-- Embeds `VideoProcessingService._validate_styles`: dynamic validation against
the fetched catalog; lists every invalid style in the message. -/
def svc_validate_styles (api : ExtApi) (styles : List String) :
    Except CategorizedError Unit :=
  match get_available_styles api with
  | .error e => .error e
  | .ok available_styles =>
    let invalid_styles := styles.filter (fun s => !(available_styles.contains s))
    if invalid_styles.isEmpty then .ok ()
    else
      .error (videoValidationError
        ("Invalid styles: " ++ pyReprStrList invalid_styles
          ++ ". Available styles: " ++ pyReprStrList available_styles))

/-- The set of live scoped temporary directories, with a fresh-name
counter: the state `tempfile.TemporaryDirectory` acts on. -/
structure World where
  liveDirs : List Nat
  nextDir : Nat

/-- Entering `tempfile.TemporaryDirectory()`: create a fresh directory. -/
def acquireTempDir (w : World) : Nat × World :=
  (w.nextDir, ⟨w.liveDirs ++ [w.nextDir], w.nextDir + 1⟩)

/-- Leaving the `with` block (normally or exceptionally): remove it. -/
def releaseTempDir (d : Nat) (w : World) : World :=
  ⟨w.liveDirs.erase d, w.nextDir⟩

/-- Path name handed to the external call as `output_dir`. -/
def tempDirName (d : Nat) : String := "/tmp/" ++ toString d

/-- Metadata block of a successful processing result (the wall-clock
`processing_time` and `processed_at` timestamp are outside the model). -/
structure ProcessingMetadata where
  language : String
  styles_processed : List String
  deriving DecidableEq

/-- A successful `process_video` return value. -/
structure ProcessingResult where
  video_url : String
  video_title : String
  results : List (String × String)
  metadata : ProcessingMetadata
  deriving DecidableEq

/-- Embeds `VideoProcessingService.process_video(video_url, styles, output_language)`:
resolve absent styles from the catalog, validate dynamically, run the
external call inside a scoped temporary directory, parse the outputs, and
categorize errors. The `with` block releases the directory on every exit
path; exceptions already typed as `VideoProcessorError` re-raise unchanged,
anything else goes through `_handle_processing_error`. -/
def process_video (api : ExtApi) (w : World) (video_url : String)
    (styles : Option (List String)) (output_language : String) :
    Except CategorizedError ProcessingResult × World :=
  match (match styles with
         | none => get_available_styles api
         | some s => Except.ok s) with
  | .error ce => (.error ce, w)
  | .ok resolvedStyles =>
    match svc_validate_styles api resolvedStyles with
    | .error ce => (.error ce, w)
    | .ok _ =>
      let dw := acquireTempDir w
      match api.process_youtube_url video_url (tempDirName dw.1) resolvedStyles output_language with
      | .error pe =>
        let w2 := releaseTempDir dw.1 dw.2
        match pe with
        | .categorized ce => (.error ce, w2)
        | .generic msg => (.error (handle_processing_error msg video_url), w2)
      | .ok output_files =>
        let parsed := parse_output_files api.disk output_files
        let w2 := releaseTempDir dw.1 dw.2
        (.ok { video_url := video_url,
               video_title := pyReplace parsed.2 "_" " ",
               results := parsed.1,
               metadata := { language := output_language,
                             styles_processed := resolvedStyles } }, w2)

/-! ## Response re-validation (`VideoResultsSerializer`) -/

/-- The five declared fields of `VideoResultsSerializer`, in declaration
order; all optional, all plain text. -/
def canonicalResultKeys : List String :=
  ["summary", "educational", "balanced", "qa_generation", "narrative"]

/-- Dict lookup on the embedded results mapping. -/
def lookupKey (d : List (String × String)) (k : String) : Option String :=
  (d.find? (fun p => p.1 == k)).map (fun p => p.2)

/-- Response re-validation of the results mapping: DRF `validated_data`
keeps each declared field that is present in the input and silently drops
every unknown key; each kept `CharField` value is stripped of leading and
trailing whitespace (the field default `trim_whitespace=True`). -/
def serializeResults (results : List (String × String)) : List (String × String) :=
  canonicalResultKeys.filterMap
    (fun k => (lookupKey results k).map (fun v => (k, pyStrip v)))

/-! ## Helper lemmas -/

/-- The function `find?` returns the entry at position `i` when it is the first
position satisfying the test. -/
theorem find?_eq_of_first {α : Type} (p : α → Bool) :
    ∀ (l : List α) (i : Nat) (h : i < l.length),
      p (l.get ⟨i, h⟩) = true →
      (∀ (j : Nat) (hj : j < l.length), j < i → p (l.get ⟨j, hj⟩) = false) →
      l.find? p = some (l.get ⟨i, h⟩)
  | a :: l', 0, _, hp, _ => by
    simp only [List.get] at hp
    simp [List.find?, hp]
  | a :: l', i + 1, h, hp, hfirst => by
    have ha : p a = false := hfirst 0 (Nat.succ_pos _) (Nat.succ_pos _)
    simp only [List.get] at hp
    have ih := find?_eq_of_first p l' i (Nat.lt_of_succ_lt_succ h) hp
      (fun j hj hji =>
        hfirst (j + 1) (Nat.succ_lt_succ hj) (Nat.succ_lt_succ hji))
    simp only [List.get]
    simp [List.find?, ha, ih]

/-- The function `pySplitChar` never returns an empty list. -/
theorem pySplitChar_ne_nil (sep : Char) :
    ∀ cs : List Char, pySplitChar sep cs ≠ []
  | [] => by simp [pySplitChar]
  | c :: cs => by
    by_cases hc : c = sep
    · simp [pySplitChar, hc]
    · have := pySplitChar_ne_nil sep cs
      simp only [pySplitChar, if_neg hc]
      cases hcs : pySplitChar sep cs with
      | nil => exact absurd hcs this
      | cons t ts => simp

/-- Splitting a list that contains the separator yields at least two parts. -/
theorem pySplitChar_length_ge_two (sep : Char) :
    ∀ cs : List Char, cs.contains sep = true →
      2 ≤ (pySplitChar sep cs).length
  | [], h => by simp [List.contains] at h
  | c :: cs, h => by
    by_cases hc : c = sep
    · have hne := pySplitChar_ne_nil sep cs
      simp only [pySplitChar, if_pos hc, List.length_cons]
      cases hcs : pySplitChar sep cs with
      | nil => exact absurd hcs hne
      | cons t ts => simp [Nat.succ_le_succ, Nat.succ_le_succ_iff]
    · have hmem : cs.contains sep = true := by
        simp only [List.contains, List.elem_cons] at h
        rcases h₂ : sep == c with _ | _
        · rw [h₂] at h; simpa [List.contains] using h
        · exact absurd (by simpa using h₂.symm) (by simpa [eq_comm] using hc)
      have ih := pySplitChar_length_ge_two sep cs hmem
      simp only [pySplitChar, if_neg hc]
      cases hcs : pySplitChar sep cs with
      | nil => exact absurd hcs (pySplitChar_ne_nil sep cs)
      | cons t ts =>
        rw [hcs] at ih
        simpa using ih

/-! ## Claims -/

/-- C1: For every output file path that exists on disk and whose stem
contains an underscore, the normalizer stores the file content under the
key resolved from the raw style label (the stem's parts after the first,
rejoined with `_`): the label is matched case/space-insensitively against
the five-entry table in table order, first match winning, and if no entry
matches the key is the label lowercased with spaces replaced by
underscores and `&` by `and`. For existing files `Foo_Summary.md` with
content `A` and `Foo_Educational.md` with content `B`, normalization
yields `{summary: A, educational: B}` and title `Foo`. -/
theorem C1_output_normalizer_key_resolution :
    (∀ (style : String) (i : Nat) (h : i < style_mapping.length),
        styleMatches style (style_mapping.get ⟨i, h⟩) = true →
        (∀ (j : Nat) (hj : j < style_mapping.length), j < i →
            styleMatches style (style_mapping.get ⟨j, hj⟩) = false) →
        resolveStyleKey style = (style_mapping.get ⟨i, h⟩).2)
    ∧ (∀ style : String,
        (∀ entry ∈ style_mapping, styleMatches style entry = false) →
        resolveStyleKey style = fallbackKey style)
    ∧ (∀ (disk : Disk) (acc : List (String × String) × String)
          (fp content : String) (p0 : List Char) (rest : List (List Char)),
        disk fp = some content →
        (pathStem fp).data.contains '_' = true →
        pySplitChar '_' (pathStem fp).data = p0 :: rest →
        parseStep disk acc fp
          = (dictInsert acc.1
              (resolveStyleKey (String.mk (joinSep '_' rest))) content,
            String.mk p0))
    ∧ parse_output_files
        (fun p => if p = "Foo_Summary.md" then some "A"
                  else if p = "Foo_Educational.md" then some "B" else none)
        ["Foo_Summary.md", "Foo_Educational.md"]
      = ([("summary", "A"), ("educational", "B")], "Foo") := by
  refine ⟨?_, ?_, ?_, by decide⟩
  · intro style i h hm hfirst
    have hfind := find?_eq_of_first (styleMatches style) style_mapping i h hm hfirst
    simp [resolveStyleKey, hfind]
  · intro style h
    have hfind : style_mapping.find? (styleMatches style) = none :=
      List.find?_eq_none.mpr (fun x hx => by simp [h x hx])
    simp [resolveStyleKey, hfind]
  · intro disk acc fp content p0 rest hdisk hsep hsplit
    have hlen : 2 ≤ (p0 :: rest).length :=
      hsplit ▸ pySplitChar_length_ge_two '_' (pathStem fp).data hsep
    have hmem : '_' ∈ (pathStem fp).data := by
      simpa using hsep
    have hrest : 1 ≤ rest.length := by simpa using hlen
    simp [parseStep, hdisk, hsep, hsplit, hmem, hrest]

/-- Witness for C1: the label `Summary` matches table entry 1 (and not
entry 0), so it resolves to the key `summary`. -/
theorem C1_witness : resolveStyleKey "Summary" = "summary" := by
  have h := C1_output_normalizer_key_resolution.1 "Summary" 1 (by decide)
    (by decide)
    (fun j hj hj1 => by
      have hj0 : j = 0 := by omega
      subst hj0
      have e : style_mapping.get ⟨0, hj⟩ = ("Balanced and Detailed", "balanced") := rfl
      rw [e]
      decide)
  simpa using h

/-- The claim's condition "message contains (case-insensitively) one of
`invalid url`, `not found`, `unavailable`". -/
def mentionsInvalidUrl (msg : String) : Bool :=
  strContains "invalid url" (pyLower msg)
    || strContains "not found" (pyLower msg)
    || strContains "unavailable" (pyLower msg)

/-- The claim's condition "message contains `timeout` case-insensitively". -/
def mentionsTimeout (msg : String) : Bool :=
  strContains "timeout" (pyLower msg)

/-- The claim's condition "message contains (case-insensitively) one of
`api key`, `authentication`". -/
def mentionsAuth (msg : String) : Bool :=
  strContains "api key" (pyLower msg)
    || strContains "authentication" (pyLower msg)

/-- The classifier chain written with the claim's three conditions; equal
to the source definition by unfolding. -/
theorem handle_processing_error_cases (msg url : String) :
    handle_processing_error msg url =
      if mentionsInvalidUrl msg = true then
        videoValidationError ("Invalid or inaccessible video URL: " ++ url)
      else if mentionsTimeout msg = true then
        processingTimeoutError "Video processing timed out"
      else if mentionsAuth msg = true then
        configurationError "API authentication failed"
      else externalServiceError ("External service error: " ++ msg) := rfl

/-- C2: the error classifier works by case-insensitive substring search in
precedence order, first match winning: invalid-url/not-found/unavailable
give a Validation error (400) referencing the video URL; then timeout
gives a Timeout error (422); then api-key/authentication give a
Configuration error (500); otherwise an ExternalService error (502)
wrapping the original message. The four sample messages classify as
Validation, Timeout, Configuration and ExternalService respectively. -/
theorem C2_error_classifier :
    ∀ msg url : String,
      (mentionsInvalidUrl msg = true →
        handle_processing_error msg url
          = videoValidationError ("Invalid or inaccessible video URL: " ++ url))
      ∧ (mentionsInvalidUrl msg = false → mentionsTimeout msg = true →
        handle_processing_error msg url
          = processingTimeoutError "Video processing timed out")
      ∧ (mentionsInvalidUrl msg = false → mentionsTimeout msg = false →
          mentionsAuth msg = true →
        handle_processing_error msg url
          = configurationError "API authentication failed")
      ∧ (mentionsInvalidUrl msg = false → mentionsTimeout msg = false →
          mentionsAuth msg = false →
        handle_processing_error msg url
          = externalServiceError ("External service error: " ++ msg))
      ∧ (handle_processing_error "Invalid URL provided" url).kind = .validation
      ∧ (handle_processing_error "Request timeout" url).kind = .timeout
      ∧ (handle_processing_error "401 Unauthorized: bad api key" url).kind
          = .configuration
      ∧ (handle_processing_error "Upstream 500" url).kind = .externalService
      ∧ statusOf .validation = 400 ∧ statusOf .timeout = 422
      ∧ statusOf .configuration = 500 ∧ statusOf .externalService = 502 := by
  intro msg url
  refine ⟨?_, ?_, ?_, ?_, ?_, ?_, ?_, ?_, rfl, rfl, rfl, rfl⟩
  · intro h1
    rw [handle_processing_error_cases]; simp [h1]
  · intro h1 h2
    rw [handle_processing_error_cases]; simp [h1, h2]
  · intro h1 h2 h3
    rw [handle_processing_error_cases]; simp [h1, h2, h3]
  · intro h1 h2 h3
    rw [handle_processing_error_cases]; simp [h1, h2, h3]
  · rw [handle_processing_error_cases]
    simp [(by decide : mentionsInvalidUrl "Invalid URL provided" = true),
      videoValidationError]
  · rw [handle_processing_error_cases]
    simp [(by decide : mentionsInvalidUrl "Request timeout" = false),
      (by decide : mentionsTimeout "Request timeout" = true),
      processingTimeoutError]
  · rw [handle_processing_error_cases]
    simp [(by decide : mentionsInvalidUrl "401 Unauthorized: bad api key" = false),
      (by decide : mentionsTimeout "401 Unauthorized: bad api key" = false),
      (by decide : mentionsAuth "401 Unauthorized: bad api key" = true),
      configurationError]
  · rw [handle_processing_error_cases]
    simp [(by decide : mentionsInvalidUrl "Upstream 500" = false),
      (by decide : mentionsTimeout "Upstream 500" = false),
      (by decide : mentionsAuth "Upstream 500" = false),
      externalServiceError]

/-- Witness for C2: `Request timeout` mentions no URL problem but does
mention a timeout, so it classifies as a Timeout error. -/
theorem C2_witness :
    handle_processing_error "Request timeout" "u"
      = processingTimeoutError "Video processing timed out" :=
  (C2_error_classifier "Request timeout" "u").2.1 (by decide) (by decide)

/-- C3 counterexample: for the request list `["Bogus1", "Bogus2"]`, both
names are invalid, but the static phase raises on the first one only: the
error message does not mention `Bogus2`, so it does not list exactly the
invalid names (all of them). -/
theorem C3_counterexample :
    ("Bogus1" ∈ valid_styles) = False ∧ ("Bogus2" ∈ valid_styles) = False
    ∧ validate_styles ["Bogus1", "Bogus2"] = .error (invalidStyleMsg "Bogus1")
    ∧ strContains "Bogus2" (invalidStyleMsg "Bogus1") = false
    ∧ strContains "Bogus1" (invalidStyleMsg "Bogus1") = true := by
  refine ⟨by simp [valid_styles], by simp [valid_styles], ?_, by decide, by decide⟩
  simp [validate_styles, valid_styles]

/-- A successful `find?` splits its list at the found element, everything
before it failing the test. -/
theorem find?_eq_some_split {α : Type} (p : α → Bool) :
    ∀ (l : List α) (b : α), l.find? p = some b →
      ∃ xs ys, l = xs ++ b :: ys ∧ ∀ x ∈ xs, p x = false
  | [], b, h => by simp [List.find?] at h
  | a :: l, b, h => by
    cases hpa : p a with
    | true =>
      have hab : some a = some b := by
        rw [List.find?] at h
        rw [hpa] at h
        exact h
      obtain rfl : a = b := by injection hab
      exact ⟨[], l, rfl, by simp⟩
    | false =>
      have h' : l.find? p = some b := by
        rw [List.find?] at h
        rw [hpa] at h
        exact h
      obtain ⟨xs, ys, rfl, hxs⟩ := find?_eq_some_split p l b h'
      refine ⟨a :: xs, ys, rfl, ?_⟩
      intro x hx
      rcases List.mem_cons.mp hx with rfl | hx'
      · exact hpa
      · exact hxs x hx'

/-- C3 (amended): for every style list containing a name outside the five
canonical request-facing names, the static phase fails with a Validation
error naming the first invalid entry in request order (every entry before
it is valid) and the valid set — not all invalid entries; lists with only
valid names pass through unchanged. -/
theorem C3_static_style_validation :
    ∀ value : List String,
      ((∃ s ∈ value, s ∉ valid_styles) →
        ∃ xs s ys, value = xs ++ s :: ys ∧
          (∀ x ∈ xs, x ∈ valid_styles) ∧ s ∉ valid_styles ∧
          validate_styles value = .error (invalidStyleMsg s))
      ∧ ((∀ s ∈ value, s ∈ valid_styles) →
        validate_styles value = .ok value) := by
  intro value
  constructor
  · intro h
    obtain ⟨s, hs, hns⟩ := h
    cases hfind : value.find? (fun s => !(valid_styles.contains s)) with
    | none =>
      exfalso
      have := List.find?_eq_none.mp hfind s hs
      simp only [Bool.not_eq_true', Bool.not_eq_false] at this
      exact hns (by simpa using this)
    | some s₀ =>
      obtain ⟨xs, ys, hsplit, hxs⟩ :=
        find?_eq_some_split (fun s => !(valid_styles.contains s)) value s₀ hfind
      refine ⟨xs, s₀, ys, hsplit, ?_, ?_, ?_⟩
      · intro x hx
        have := hxs x hx
        simp only [Bool.not_eq_false] at this
        simpa using this
      · have := List.find?_some hfind
        simp only [Bool.not_eq_true'] at this
        simpa using this
      · unfold validate_styles
        rw [hfind]
  · intro h
    have hfind : value.find? (fun s => !(valid_styles.contains s)) = none :=
      List.find?_eq_none.mpr (fun x hx => by simp [h x hx])
    unfold validate_styles
    rw [hfind]

/-- Witness for C3: in `["Summary", "Bogus1", "Bogus2"]` the first invalid
name in request order is `Bogus1`, and the rejection names it. -/
theorem C3_witness :
    ∃ xs s ys, ["Summary", "Bogus1", "Bogus2"] = xs ++ s :: ys ∧
      (∀ x ∈ xs, x ∈ valid_styles) ∧ s ∉ valid_styles ∧
      validate_styles ["Summary", "Bogus1", "Bogus2"]
        = .error (invalidStyleMsg s) :=
  (C3_static_style_validation ["Summary", "Bogus1", "Bogus2"]).1
    ⟨"Bogus1", by decide, by decide⟩

/-- A file whose stem has no separator leaves the loop accumulator
untouched. -/
theorem parseStep_skip (disk : Disk) (acc : List (String × String) × String)
    (fp : String) (h : (pathStem fp).data.contains '_' = false) :
    parseStep disk acc fp = acc := by
  cases hdisk : disk fp with
  | none => simp [parseStep, hdisk]
  | some content =>
    have hmem : ¬('_' ∈ (pathStem fp).data) := by simpa using h
    simp [parseStep, hdisk, hmem]

/-- C7: an output file whose stem contains no separator character is
skipped by the normalizer: it contributes nothing to the results mapping
and does not change the video title, whether considered as a single loop
step or removed from an arbitrary file list; the file `NoUnderscore.md`
yields the empty mapping and the sentinel title. -/
theorem C7_no_separator_skipped :
    (∀ (disk : Disk) (acc : List (String × String) × String) (fp : String),
        (pathStem fp).data.contains '_' = false →
        parseStep disk acc fp = acc)
    ∧ (∀ (disk : Disk) (xs ys : List String) (fp : String),
        (pathStem fp).data.contains '_' = false →
        parse_output_files disk (xs ++ fp :: ys)
          = parse_output_files disk (xs ++ ys))
    ∧ parse_output_files
        (fun p => if p = "NoUnderscore.md" then some "C" else none)
        ["NoUnderscore.md"]
      = ([], "Unknown Title") := by
  refine ⟨parseStep_skip, ?_, by decide⟩
  intro disk xs ys fp h
  unfold parse_output_files
  rw [List.foldl_append, List.foldl_append, List.foldl_cons,
    parseStep_skip disk _ fp h]

/-- Witness for C7: one skipped step on a concrete accumulator. -/
theorem C7_witness :
    parseStep (fun _ => some "x") ([], "t") "NoUnderscore.md" = ([], "t") :=
  C7_no_separator_skipped.1 (fun _ => some "x") ([], "t") "NoUnderscore.md"
    (by decide)

/-- Looking up a key on a cons cell with a different key skips it. -/
theorem lookupKey_cons_ne (k0 k v : String) (d : List (String × String))
    (hne : (k0 == k) = false) :
    lookupKey ((k0, v) :: d) k = lookupKey d k := by
  simp [lookupKey, List.find?, hne]

/-- Looking up a key on a cons cell with that key returns its value. -/
theorem lookupKey_cons_eq (k v : String) (d : List (String × String)) :
    lookupKey ((k, v) :: d) k = some v := by
  simp [lookupKey, List.find?]

/-- Keys outside `keys` are absent from the re-validated mapping. -/
theorem lookup_filterMap_not_mem (results : List (String × String))
    (g : String → String) :
    ∀ (keys : List String) (k : String), k ∉ keys →
      lookupKey (keys.filterMap
        (fun k => (lookupKey results k).map (fun v => (k, g v)))) k = none
  | [], k, _ => rfl
  | k0 :: keys, k, h => by
    have hne : k ∉ keys := fun hk => h (List.mem_cons_of_mem _ hk)
    have hne0 : (k0 == k) = false :=
      beq_eq_false_iff_ne.mpr (fun he => h (he ▸ List.mem_cons_self _ _))
    have ih := lookup_filterMap_not_mem results g keys k hne
    simp only [List.filterMap_cons]
    cases h0 : lookupKey results k0 with
    | none => exact ih
    | some v =>
      simp only [Option.map_some']
      rw [lookupKey_cons_ne k0 k (g v) _ hne0]
      exact ih

/-- Declared keys look up to their original values, transformed by the
field validator, in the re-validated mapping. -/
theorem lookup_filterMap_mem (results : List (String × String))
    (g : String → String) :
    ∀ (keys : List String), keys.Nodup → ∀ k ∈ keys,
      lookupKey (keys.filterMap
        (fun k => (lookupKey results k).map (fun v => (k, g v)))) k
        = (lookupKey results k).map g
  | [], _, k, hk => absurd hk (List.not_mem_nil k)
  | k0 :: keys, hnd, k, hk => by
    have hnd' : keys.Nodup := (List.nodup_cons.mp hnd).2
    have h0nd : k0 ∉ keys := (List.nodup_cons.mp hnd).1
    simp only [List.filterMap_cons]
    rcases List.mem_cons.mp hk with he | hmem
    · subst he
      cases h0 : lookupKey results k with
      | none =>
        exact lookup_filterMap_not_mem results g keys k h0nd
      | some v =>
        simp only [Option.map_some']
        exact lookupKey_cons_eq k (g v) _
    · have hne0 : (k0 == k) = false :=
        beq_eq_false_iff_ne.mpr (fun he => h0nd (he ▸ hmem))
      have ih := lookup_filterMap_mem results g keys hnd' k hmem
      cases h0 : lookupKey results k0 with
      | none => exact ih
      | some v =>
        simp only [Option.map_some']
        rw [lookupKey_cons_ne k0 k (g v) _ hne0]
        exact ih

/-- C9 counterexample: response re-validation does not leave canonical
entries unaffected: DRF strips leading/trailing whitespace from every kept
`CharField` value, so a summary ending in a newline changes under
re-validation. -/
theorem C9_counterexample :
    serializeResults [("summary", "hello\n")] = [("summary", "hello")]
    ∧ lookupKey (serializeResults [("summary", "hello\n")]) "summary"
      ≠ lookupKey [("summary", "hello\n")] "summary" := by
  constructor
  · decide
  · decide

/-- C9 (amended): in the success response, the re-validated results
mapping contains only the five canonical style keys: entries under any
other key (such as a fallback-derived key) are silently dropped, while
entries under canonical keys are kept with their values stripped of
leading and trailing whitespace (the `CharField` default
`trim_whitespace`), and the rest of the payload is otherwise unaffected.
Concretely, `Video_Weird Style.md` parses to the fallback key
`weird_style`, which re-validation drops. -/
theorem C9_response_results_canonical :
    (∀ (results : List (String × String)) (p : String × String),
        p ∈ serializeResults results → p.1 ∈ canonicalResultKeys)
    ∧ (∀ (results : List (String × String)) (k : String),
        k ∈ canonicalResultKeys →
        lookupKey (serializeResults results) k
          = (lookupKey results k).map pyStrip)
    ∧ (∀ (results : List (String × String)) (k : String),
        k ∉ canonicalResultKeys →
        lookupKey (serializeResults results) k = none)
    ∧ parse_output_files
        (fun p => if p = "Video_Weird Style.md" then some "X"
                  else if p = "Video_Summary.md" then some "A" else none)
        ["Video_Weird Style.md", "Video_Summary.md"]
      = ([("weird_style", "X"), ("summary", "A")], "Video")
    ∧ serializeResults [("weird_style", "X"), ("summary", "A")]
      = [("summary", "A")] := by
  refine ⟨?_, ?_, ?_, by decide, by decide⟩
  · intro results p hp
    simp only [serializeResults, List.mem_filterMap] at hp
    obtain ⟨k, hk, hfk⟩ := hp
    cases hl : lookupKey results k with
    | none => rw [hl] at hfk; exact absurd hfk (by simp)
    | some v =>
      rw [hl] at hfk
      have he : (k, pyStrip v) = p := by simpa using hfk
      rw [← he]
      exact hk
  · intro results k hk
    simp only [serializeResults]
    exact lookup_filterMap_mem results pyStrip canonicalResultKeys
      (by decide) k hk
  · intro results k hk
    simp only [serializeResults]
    exact lookup_filterMap_not_mem results pyStrip canonicalResultKeys k hk

/-- Witness for C9: a canonical key survives re-validation with its
value stripped. -/
theorem C9_witness :
    lookupKey (serializeResults [("summary", " A ")]) "summary"
      = (lookupKey [("summary", " A ")] "summary").map pyStrip :=
  C9_response_results_canonical.2.1 [("summary", " A ")] "summary"
    (by decide)

/-- Requested styles all present in the catalog leave no invalid entries. -/
theorem filter_not_contains_nil (S L : List String) (h : ∀ s ∈ S, s ∈ L) :
    S.filter (fun s => !(L.contains s)) = [] :=
  List.filter_eq_nil_iff.mpr (fun a ha => by simp [h a ha])

/-- Dynamic style validation passes when every requested style is in the
fetched catalog. -/
theorem svc_validate_styles_ok (api : ExtApi) (L S : List String)
    (hL : api.available_styles = .ok L) (h : ∀ s ∈ S, s ∈ L) :
    svc_validate_styles api S = .ok () := by
  unfold svc_validate_styles get_available_styles
  rw [hL]
  simp [filter_not_contains_nil S L h]
  exact h

/-- Styles resolve from the catalog when the argument is absent. -/
theorem resolve_absent_styles (api : ExtApi) (L : List String)
    (hL : api.available_styles = .ok L) :
    get_available_styles api = .ok L := by
  unfold get_available_styles
  rw [hL]

/-- C4: when the styles argument is absent, the orchestrator fetches the
full supported-style list from the external service and uses it as the
requested set: the external call receives that fetched list, and the
success result's `metadata.styles_processed` equals it. -/
theorem C4_absent_styles_means_all (api : ExtApi) (w : World)
    (url lang : String) (L files : List String)
    (hL : api.available_styles = .ok L)
    (hp : api.process_youtube_url url (tempDirName w.nextDir) L lang
      = .ok files) :
    (process_video api w url none lang).1
      = .ok { video_url := url,
              video_title := pyReplace (parse_output_files api.disk files).2 "_" " ",
              results := (parse_output_files api.disk files).1,
              metadata := { language := lang, styles_processed := L } } := by
  have h1 := resolve_absent_styles api L hL
  have h2 := svc_validate_styles_ok api L L hL (fun s hs => hs)
  simp [process_video, h1, h2, acquireTempDir, hp]

/-- Witness for C4: a one-style catalog is substituted for the absent
styles argument and reported in the metadata. -/
theorem C4_witness :
    (process_video
      { available_styles := .ok ["Summary"],
        process_youtube_url := fun _ _ _ _ => .ok ["TestVideo_Summary.md"],
        disk := fun p => if p = "TestVideo_Summary.md" then some "hello" else none }
      ⟨[], 0⟩ "https://youtu.be/abc123" none "English").1
      = .ok { video_url := "https://youtu.be/abc123",
              video_title := "TestVideo",
              results := [("summary", "hello")],
              metadata := { language := "English",
                            styles_processed := ["Summary"] } } :=
  C4_absent_styles_means_all
    { available_styles := .ok ["Summary"],
      process_youtube_url := fun _ _ _ _ => .ok ["TestVideo_Summary.md"],
      disk := fun p => if p = "TestVideo_Summary.md" then some "hello" else none }
    ⟨[], 0⟩ "https://youtu.be/abc123" "English" ["Summary"]
    ["TestVideo_Summary.md"] rfl rfl

/-- C10: a present-but-empty styles list is not substituted: dynamic
validation passes vacuously and the external service is invoked with the
empty style list, so `styles_processed` is empty rather than the fetched
catalog; the request schema's static phase accepts the empty list. -/
theorem C10_empty_styles_not_substituted (api : ExtApi) (w : World)
    (url lang : String) (L files : List String)
    (hL : api.available_styles = .ok L)
    (hp : api.process_youtube_url url (tempDirName w.nextDir) [] lang
      = .ok files) :
    validate_styles [] = .ok []
    ∧ (process_video api w url (some []) lang).1
      = .ok { video_url := url,
              video_title := pyReplace (parse_output_files api.disk files).2 "_" " ",
              results := (parse_output_files api.disk files).1,
              metadata := { language := lang, styles_processed := [] } } := by
  refine ⟨rfl, ?_⟩
  have h2 := svc_validate_styles_ok api L [] hL (by simp)
  simp [process_video, h2, acquireTempDir, hp]

/-- Witness for C10: with a nonempty catalog, an explicitly empty request
list stays empty through processing. -/
theorem C10_witness :
    validate_styles [] = .ok []
    ∧ (process_video
        { available_styles := .ok ["Summary"],
          process_youtube_url := fun _ _ _ _ => .ok [],
          disk := fun _ => none }
        ⟨[], 0⟩ "https://youtu.be/abc123" (some []) "English").1
      = .ok { video_url := "https://youtu.be/abc123",
              video_title := "Unknown Title",
              results := [],
              metadata := { language := "English",
                            styles_processed := [] } } :=
  C10_empty_styles_not_substituted
    { available_styles := .ok ["Summary"],
      process_youtube_url := fun _ _ _ _ => .ok [],
      disk := fun _ => none }
    ⟨[], 0⟩ "https://youtu.be/abc123" "English" ["Summary"] [] rfl rfl

/-- C6: an exception from the external call that is already one of the
four categorized errors propagates out of the orchestrator unchanged (no
re-classification, no double-wrapping), while any other exception is
routed through the error classifier before propagating. -/
theorem C6_categorized_errors_propagate (api : ExtApi) (w : World)
    (url lang : String) (S L : List String)
    (hL : api.available_styles = .ok L)
    (hS : ∀ s ∈ S, s ∈ L) :
    (∀ ce : CategorizedError,
      api.process_youtube_url url (tempDirName w.nextDir) S lang
        = .error (.categorized ce) →
      (process_video api w url (some S) lang).1 = .error ce)
    ∧ (∀ m : String,
      api.process_youtube_url url (tempDirName w.nextDir) S lang
        = .error (.generic m) →
      (process_video api w url (some S) lang).1
        = .error (handle_processing_error m url)) := by
  have h2 := svc_validate_styles_ok api L S hL hS
  constructor
  · intro ce hp
    simp [process_video, h2, acquireTempDir, hp]
  · intro m hp
    simp [process_video, h2, acquireTempDir, hp]

/-- Witness for C6: an already-typed Timeout error surfaces unchanged. -/
theorem C6_witness :
    (process_video
      { available_styles := .ok ["Summary"],
        process_youtube_url := fun _ _ _ _ =>
          .error (.categorized (processingTimeoutError "Processing timeout")),
        disk := fun _ => none }
      ⟨[], 0⟩ "https://youtu.be/abc123" (some ["Summary"]) "English").1
      = .error (processingTimeoutError "Processing timeout") :=
  (C6_categorized_errors_propagate _ _ _ _ _ _ rfl
      (fun s hs => hs)).1 _ rfl

/-- C8: the scoped temporary directory acquired for an invocation is
removed on every exit path: whatever the styles argument, catalog answer
and external-call outcome, the set of live directories after the call
equals the set before it. -/
theorem C8_tempdir_always_released (api : ExtApi) (w : World)
    (url : String) (styles : Option (List String)) (lang : String)
    (hfresh : w.nextDir ∉ w.liveDirs) :
    (process_video api w url styles lang).2.liveDirs = w.liveDirs := by
  have key : (w.liveDirs ++ [w.nextDir]).erase w.nextDir = w.liveDirs := by
    rw [List.erase_append_right _ hfresh, List.erase_cons_head]
    simp
  unfold process_video
  cases hres : (match styles with
                | none => get_available_styles api
                | some s => Except.ok s) with
  | error ce => simp
  | ok resolved =>
    cases hval : svc_validate_styles api resolved with
    | error ce => simp [hval]
    | ok u =>
      simp only [hval, acquireTempDir]
      cases hp : api.process_youtube_url url (tempDirName w.nextDir)
          resolved lang with
      | error pe =>
        cases pe with
        | categorized ce => simp [hp, releaseTempDir, key]
        | generic m => simp [hp, releaseTempDir, key]
      | ok files => simp [hp, releaseTempDir, key]

/-- Witness for C8: a concrete invocation starting with no live
directories ends with none. -/
theorem C8_witness :
    (process_video
      { available_styles := .ok ["Summary"],
        process_youtube_url := fun _ _ _ _ => .ok [],
        disk := fun _ => none }
      ⟨[], 0⟩ "https://youtu.be/abc123" none "English").2.liveDirs = [] :=
  C8_tempdir_always_released _ _ _ _ _ (by simp)

/-- The matcher `dropLit` succeeds exactly when the literal is a prefix, returning the
remainder. -/
theorem dropLit_eq_some : ∀ (lit cs r : List Char),
    dropLit lit cs = some r ↔ cs = lit ++ r
  | [], cs, r => by simp [dropLit]
  | l :: ls, [], r => by simp [dropLit]
  | l :: ls, c :: cs, r => by
    by_cases hc : c = l
    · subst hc
      simp [dropLit, dropLit_eq_some ls cs r]
    · simp [dropLit, hc]

/-- An anchored `v=[\w-]` match survives appended input. -/
theorem vEqHead_append (cs t : List Char) (h : vEqHead cs = true) :
    vEqHead (cs ++ t) = true := by
  rcases cs with _ | ⟨c1, _ | ⟨c2, _ | ⟨c3, rest⟩⟩⟩
  · simp [vEqHead] at h
  · simp [vEqHead] at h
  · simp [vEqHead] at h
  · simpa [vEqHead] using h

/-- A `.​*v=[\w-]` match survives appended input. -/
theorem dotStarVEq_append : ∀ (cs t : List Char),
    dotStarVEq cs = true → dotStarVEq (cs ++ t) = true
  | [], t, h => by simp [dotStarVEq] at h
  | c :: cs, t, h => by
    rw [List.cons_append]
    rw [dotStarVEq] at h ⊢
    rcases Bool.or_eq_true_iff.mp h with hv | hrest
    · exact Bool.or_eq_true_iff.mpr (Or.inl (by
        have := vEqHead_append (c :: cs) t hv
        simpa using this))
    · by_cases hc : c = '\n'
      · rw [if_pos hc] at hrest
        exact absurd hrest (by simp)
      · rw [if_neg hc] at hrest
        refine Bool.or_eq_true_iff.mpr (Or.inr ?_)
        rw [if_neg hc]
        exact dotStarVEq_append cs t hrest

/-- An anchored `[\w-]+` match survives appended input. -/
theorem hasWordDashHead_append (r t : List Char)
    (h : hasWordDashHead r = true) : hasWordDashHead (r ++ t) = true := by
  cases r with
  | nil => simp [hasWordDashHead] at h
  | cons c cs => simpa [hasWordDashHead] using h

/-- A literal-then-id match survives appended input. -/
theorem litThenId_append (lit : String) (cs t : List Char)
    (h : litThenId lit cs = true) : litThenId lit (cs ++ t) = true := by
  unfold litThenId at h ⊢
  cases h1 : dropLit lit.data cs with
  | none => rw [h1] at h; exact absurd h (by simp)
  | some r =>
    rw [h1] at h
    have hcs : cs = lit.data ++ r := (dropLit_eq_some _ _ _).mp h1
    have h2 : dropLit lit.data (cs ++ t) = some (r ++ t) :=
      (dropLit_eq_some _ _ _).mpr (by rw [hcs, List.append_assoc])
    rw [h2]
    exact hasWordDashHead_append r t h

/-- A boolean-prefix match survives appended input. -/
theorem isPrefixOf_append_ext : ∀ (l cs t : List Char),
    l.isPrefixOf cs = true → l.isPrefixOf (cs ++ t) = true
  | [], cs, t, _ => by simp [List.isPrefixOf]
  | a :: l, [], t, h => by simp [List.isPrefixOf] at h
  | a :: l, c :: cs, t, h => by
    simp only [List.isPrefixOf, List.cons_append, Bool.and_eq_true] at h ⊢
    exact ⟨h.1, isPrefixOf_append_ext l cs t h.2⟩

/-- A boolean-prefix match bounds the length. -/
theorem isPrefixOf_length_le : ∀ (l cs : List Char),
    l.isPrefixOf cs = true → l.length ≤ cs.length
  | [], cs, _ => by simp
  | a :: l, [], h => by simp [List.isPrefixOf] at h
  | a :: l, c :: cs, h => by
    simp only [List.isPrefixOf, Bool.and_eq_true] at h
    simpa using isPrefixOf_length_le l cs h.2

/-- The scheme matcher commutes with appending input. -/
theorem dropScheme_append (cs t rest : List Char)
    (h : dropScheme cs = some rest) :
    dropScheme (cs ++ t) = some (rest ++ t) := by
  unfold dropScheme at h ⊢
  cases h1 : dropLit "https://".data cs with
  | some r =>
    rw [h1] at h
    have hr : r = rest := by simpa using h
    subst hr
    have hcs : cs = "https://".data ++ r := (dropLit_eq_some _ _ _).mp h1
    have h2 : dropLit "https://".data (cs ++ t) = some (r ++ t) :=
      (dropLit_eq_some _ _ _).mpr (by rw [hcs, List.append_assoc])
    rw [h2]
  | none =>
    rw [h1] at h
    have hcs : cs = "http://".data ++ rest := (dropLit_eq_some _ _ _).mp h
    have h2 : dropLit "https://".data (cs ++ t) = none := by
      rw [hcs, List.append_assoc]
      simp [dropLit]
    have h3 : dropLit "http://".data (cs ++ t) = some (rest ++ t) :=
      (dropLit_eq_some _ _ _).mpr (by rw [hcs, List.append_assoc])
    rw [h2, h3]

/-- The optional `www.` consumer commutes with appending input when the
remainder is headed by `y` or the `www.` really is present. -/
theorem dropWWW_append (cs t : List Char)
    (h : ("www.".data.isPrefixOf cs = true) ∨ ∃ ys, cs = 'y' :: ys) :
    dropWWW (cs ++ t) = dropWWW cs ++ t := by
  rcases h with hw | ⟨ys, rfl⟩
  · have hw' : "www.".data.isPrefixOf (cs ++ t) = true :=
      isPrefixOf_append_ext "www.".data cs t hw
    have hlen : 4 ≤ cs.length := by
      simpa using isPrefixOf_length_le "www.".data cs hw
    unfold dropWWW
    rw [if_pos hw', if_pos hw]
    exact List.drop_append_of_le_length hlen
  · have h1 : "www.".data.isPrefixOf ('y' :: ys) = false := by
      simp [List.isPrefixOf]
    have h2 : "www.".data.isPrefixOf ('y' :: (ys ++ t)) = false := by
      simp [List.isPrefixOf]
    unfold dropWWW
    rw [List.cons_append, if_neg (by simp [h1]), if_neg (by simp [h2])]
    simp

/-- When a branch needing a `youtube...` literal succeeded under
`dropWWW cs`, the `dropWWW`-shape hypothesis holds. -/
theorem dropWWW_shape (cs r : List Char) (lit : String)
    (hlit : ∃ ls, lit.data = 'y' :: ls)
    (h : dropLit lit.data (dropWWW cs) = some r) :
    ("www.".data.isPrefixOf cs = true) ∨ ∃ ys, cs = 'y' :: ys := by
  by_cases hw : "www.".data.isPrefixOf cs = true
  · exact Or.inl hw
  · right
    have he : dropWWW cs = cs := by
      unfold dropWWW
      rw [if_neg (by simp [hw])]
    rw [he] at h
    obtain ⟨ls, hls⟩ := hlit
    have hcs := (dropLit_eq_some _ _ _).mp h
    rw [hls] at hcs
    exact ⟨ls ++ r, by rw [hcs]; rfl⟩

/-- A full YouTube-pattern match survives appended input. -/
theorem matchYoutube_append (s t : String) (h : matchYoutube s = true) :
    matchYoutube (s ++ t) = true := by
  unfold matchYoutube at h ⊢
  rw [String.data_append]
  cases hs : dropScheme s.data with
  | none => rw [hs] at h; exact absurd h (by simp)
  | some rest =>
    rw [hs] at h
    rw [dropScheme_append s.data t.data rest hs]
    simp only [Bool.or_eq_true] at h ⊢
    rcases h with ((((h1 | h2) | h3) | h4) | h5)
    · refine Or.inl (Or.inl (Or.inl (Or.inl ?_)))
      unfold litThenId at h1
      cases hd : dropLit "youtube.com/watch?v=".data (dropWWW rest) with
      | none => rw [hd] at h1; exact absurd h1 (by simp)
      | some r =>
        have hshape := dropWWW_shape rest r "youtube.com/watch?v=" ⟨_, rfl⟩ hd
        have heq := dropWWW_append rest t.data hshape
        have := litThenId_append "youtube.com/watch?v=" (dropWWW rest) t.data h1
        rw [heq]
        exact this
    · refine Or.inl (Or.inl (Or.inl (Or.inr ?_)))
      cases hd : dropLit "youtube.com/watch?".data (dropWWW rest) with
      | none => rw [hd] at h2; exact absurd h2 (by simp)
      | some r =>
        rw [hd] at h2
        have hshape := dropWWW_shape rest r "youtube.com/watch?" ⟨_, rfl⟩ hd
        have heq := dropWWW_append rest t.data hshape
        rw [heq]
        have hd2 : dropLit "youtube.com/watch?".data (dropWWW rest ++ t.data)
            = some (r ++ t.data) :=
          (dropLit_eq_some _ _ _).mpr
            (by rw [(dropLit_eq_some _ _ _).mp hd, List.append_assoc])
        rw [hd2]
        exact dotStarVEq_append r t.data h2
    · exact Or.inl (Or.inl (Or.inr (litThenId_append "youtu.be/" rest t.data h3)))
    · refine Or.inl (Or.inr ?_)
      unfold litThenId at h4
      cases hd : dropLit "youtube.com/embed/".data (dropWWW rest) with
      | none => rw [hd] at h4; exact absurd h4 (by simp)
      | some r =>
        have hshape := dropWWW_shape rest r "youtube.com/embed/" ⟨_, rfl⟩ hd
        have heq := dropWWW_append rest t.data hshape
        have := litThenId_append "youtube.com/embed/" (dropWWW rest) t.data h4
        rw [heq]
        exact this
    · refine Or.inr ?_
      unfold litThenId at h5
      cases hd : dropLit "youtube.com/v/".data (dropWWW rest) with
      | none => rw [hd] at h5; exact absurd h5 (by simp)
      | some r =>
        have hshape := dropWWW_shape rest r "youtube.com/v/" ⟨_, rfl⟩ hd
        have heq := dropWWW_append rest t.data hshape
        have := litThenId_append "youtube.com/v/" (dropWWW rest) t.data h5
        rw [heq]
        exact this

/-- C5: every string matching one of the five accepted YouTube URL shapes
is returned unchanged by the URL validator; matching is anchored at the
start only, so any trailing garbage appended to a matching string is still
accepted; every non-matching string is rejected with the Validation error
message. One concrete URL per accepted shape matches; non-YouTube strings
do not. -/
theorem C5_url_validator :
    (∀ s : String, matchYoutube s = true → validate_video_url s = .ok s)
    ∧ (∀ s t : String, matchYoutube s = true →
        validate_video_url (s ++ t) = .ok (s ++ t))
    ∧ (∀ s : String, matchYoutube s = false →
        validate_video_url s = .error invalidUrlMsg)
    ∧ matchYoutube "https://www.youtube.com/watch?v=dQw4w9WgXcQ" = true
    ∧ matchYoutube "https://www.youtube.com/watch?t=10s&v=abc123" = true
    ∧ matchYoutube "https://youtu.be/abc123" = true
    ∧ matchYoutube "https://www.youtube.com/embed/abc123" = true
    ∧ matchYoutube "http://youtube.com/v/abc-123" = true
    ∧ matchYoutube "not-a-url" = false
    ∧ matchYoutube "https://vimeo.com/12345" = false := by
  refine ⟨?_, ?_, ?_, by decide, by decide, by decide, by decide, by decide,
    by decide, by decide⟩
  · intro s h
    simp [validate_video_url, h]
  · intro s t h
    simp [validate_video_url, matchYoutube_append s t h]
  · intro s h
    simp [validate_video_url, h]

/-- Witness for C5: a matching URL with trailing garbage is accepted. -/
theorem C5_witness :
    validate_video_url ("https://youtu.be/abc123" ++ "&&&trailing garbage")
      = .ok ("https://youtu.be/abc123" ++ "&&&trailing garbage") :=
  C5_url_validator.2.1 "https://youtu.be/abc123" "&&&trailing garbage"
    (by decide)

end VideoProc
